import Mathlib

/-!
Shallow embedding of the marketing-CRM backend (`backend/index.js`):
the segment rule evaluator (`matchCondition`), the campaign dispatch
route (`POST /api/campaigns/:id/send`), the receipt reconciliation
batch (`processReceiptsBatch`) and the order-ingestion route
(`POST /api/orders`).

Modelling conventions:
* JS numbers are binary64 doubles, modelled as the exact rationals
  they denote (`Rat`); where the code does float arithmetic (the order
  rollup's `+` and `toFixed(2)`) the binary64 rounding is modelled
  explicitly (`flQ`, `jsAdd`, `jsRound2`).  The rule evaluator's
  comparisons and the dispatch counters are exact on doubles, so they
  need no rounding model.  `Date.parse` results are millisecond
  timestamps modelled as `Int`; a `NaN` parse result is `Option.none`.
* A condition's raw `value` undergoes three JS coercions in the source
  (`Number(value)`, `Date.parse(String(value))`,
  `String(value || '').toLowerCase()`); the coercions themselves are
  external (JS runtime), so a `CondValue` carries their results.
* A customer's stored `last_order_date` is either absent/null (`none`)
  or a present string whose `Date.parse` result is carried
  (`some none` = present but unparseable, `some (some t)` = parses to
  timestamp `t`).
* Fresh UUIDs and the current clock are injected as parameters
  (`mkId`, `now`), and the `Math.random() < 0.9` draw of the dispatch
  loop is an injected decision function `success : Nat → Bool` indexed
  by the position in the match list.
* Writes to the JSON data files are modelled by the lists returned by
  each embedded operation; `persisted` flags record whether a write
  call happened.
-/

namespace Crm

/-- Condition fields accepted by the Joi `previewSchema`
(`'total_spent', 'email', 'last_order_date'`). -/
inductive Field where
  | total_spent
  | email
  | last_order_date
deriving DecidableEq

/-- Condition operators accepted by the Joi `previewSchema`
(`'gt','gte','lt','lte','eq','neq'`). -/
inductive Op where
  | gt
  | gte
  | lt
  | lte
  | eq
  | neq
deriving DecidableEq

/-- The JS coercions of a condition's `value`, carried as data:
`asNum` is `Number(value)` (`none` = NaN), `asDate` is
`Date.parse(String(value))` (`none` = NaN), `asStr` is
`String(value || '').toLowerCase()`. -/
structure CondValue where
  asNum : Option Rat
  asDate : Option Int
  asStr : String
deriving DecidableEq

/-- One segment condition `{field, op, value}`. -/
structure Condition where
  field : Field
  op : Op
  value : CondValue
deriving DecidableEq

/-- The customer fields read by the evaluator and by order ingestion.
`total_spent = none` models the field being absent/undefined; the
source reads it as `Number(fieldVal || 0)` resp.
`Number(customer.total_spent || 0)`.  `last_order_date` carries the
`Date.parse` result of the stored string (see module header).  The
inert fields (name, phone, metadata, createdAt) are omitted. -/
structure Customer where
  email : String
  total_spent : Option Rat
  last_order_date : Option (Option Int)
deriving DecidableEq

/-- Numeric branch of `matchCondition` (field `total_spent`): plain
JS `<`, `>`, `===`, `!==` on numbers; neither side is NaN here (the
right side was guarded by `isNaN`, the left is `Number(fieldVal || 0)`
of a stored number). -/
def numCmp (op : Op) (l r : Rat) : Bool :=
  match op with
  | .gt => decide (l > r)
  | .gte => decide (l ≥ r)
  | .lt => decide (l < r)
  | .lte => decide (l ≤ r)
  | .eq => l == r
  | .neq => l != r

/-- Timestamp branch of `matchCondition` (field `last_order_date`):
the left side `leftTs` may be NaN (`none`), in which case every JS
comparison is false except `!==`, which is true.  The right side was
guarded by `isNaN(rightTs)` in the source, so it is a plain `Int`. -/
def tsCmp (op : Op) (l : Option Int) (r : Int) : Bool :=
  match l with
  | none =>
    match op with
    | .neq => true
    | _ => false
  | some lv =>
    match op with
    | .gt => decide (lv > r)
    | .gte => decide (lv ≥ r)
    | .lt => decide (lv < r)
    | .lte => decide (lv ≤ r)
    | .eq => lv == r
    | .neq => lv != r

/-- `.toLowerCase()` on an (ASCII) string, as a structurally
computable map over the character list. -/
def jsToLower (s : String) : String :=
  ⟨s.data.map Char.toLower⟩

/-- Embedding of `matchCondition(customer, condition)`. -/
def matchCondition (customer : Customer) (condition : Condition) : Bool :=
  match condition.field with
  | .last_order_date =>
    -- const leftTs = fieldVal ? Date.parse(fieldVal) : 0;
    let leftTs : Option Int :=
      match customer.last_order_date with
      | none => some 0
      | some parsed => parsed
    -- const rightTs = Date.parse(String(value)); if (isNaN(rightTs)) return false;
    match condition.value.asDate with
    | none => false
    | some rightTs => tsCmp condition.op leftTs rightTs
  | .total_spent =>
    -- const left = Number(fieldVal || 0); const right = Number(value);
    -- if (isNaN(right)) return false;
    let left : Rat := customer.total_spent.getD 0
    match condition.value.asNum with
    | none => false
    | some right => numCmp condition.op left right
  | .email =>
    -- const leftStr = String(fieldVal || '').toLowerCase();
    let leftStr := jsToLower customer.email
    let rightStr := condition.value.asStr
    match condition.op with
    | .eq => leftStr == rightStr
    | .neq => leftStr != rightStr
    | _ => false

/-- Segment logic (`'AND' | 'OR'`). -/
inductive Logic where
  | AND
  | OR
deriving DecidableEq

/-- Embedding of the per-customer rule evaluation used by preview and
dispatch:
`const results = conditions.map(cond => matchCondition(c, cond));`
`logic === 'AND' ? results.every(Boolean) : results.some(Boolean)`. -/
def evalConditions (customer : Customer) (conditions : List Condition) (logic : Logic) : Bool :=
  let results := conditions.map (matchCondition customer)
  match logic with
  | .AND => results.all (fun b => b)
  | .OR => results.any (fun b => b)

/-- A saved segment (fields read by the send route). -/
structure Segment where
  id : String
  conditions : List Condition
  logic : Logic
deriving DecidableEq

/-- A campaign record (fields read or written by the send route). -/
structure Campaign where
  id : String
  segmentId : String
  message : String
  status : String
deriving DecidableEq

/-- A communication-log record as written by the dispatch loop and
updated by the reconciler.  `deliveredAt` is absent until a receipt is
applied. -/
structure CommRecord where
  id : String
  campaignId : String
  customer_email : String
  status : String
  message : String
  timestamp : String
  deliveredAt : Option String
deriving DecidableEq

/-- Mutating the first array element satisfying a predicate, the
effect of `arr.find(p)` followed by mutation of the returned object
and a rewrite of the whole array. -/
def mutateFirst (p : α → Bool) (f : α → α) : List α → List α
  | [] => []
  | x :: xs => if p x then f x :: xs else x :: mutateFirst p f xs

/-- The JSON body returned by `POST /api/campaigns/:id/send` on
success. -/
structure SendResult where
  audience_count : Nat
  sent : Nat
  failed : Nat
  sample : List CommRecord
deriving DecidableEq

/-- Outcome of the send route: the two 404 paths, or the 200 path
carrying the response body together with the campaigns array and the
communication log as persisted after the call. -/
inductive SendOutcome where
  | campaignNotFound
  | segmentNotFound
  | ok (result : SendResult) (campaigns : List Campaign) (log : List CommRecord)
deriving DecidableEq

/-- Embedding of the `matches.forEach` dispatch loop: per matched
customer, draw `success i` (for `Math.random() < 0.9`), build one
record with status `SENT` or `FAILED`, bump the corresponding counter
and append the record.  Returns `(sent, failed, records)` with the
records in append order; the route's `sample` is the first 5 of them
and the log grows by exactly this record list. -/
def dispatchLoop (campaign : Campaign) (success : Nat → Bool) (mkId : Nat → String)
    (now : String) : List Customer → Nat → Nat × Nat × List CommRecord
  | [], _ => (0, 0, [])
  | cust :: rest, i =>
    let succ := success i
    let status := if succ then "SENT" else "FAILED"
    let record : CommRecord :=
      { id := mkId i, campaignId := campaign.id, customer_email := cust.email,
        status := status, message := campaign.message, timestamp := now, deliveredAt := none }
    let t := dispatchLoop campaign success mkId now rest (i + 1)
    (if succ then t.1 + 1 else t.1, if succ then t.2.1 else t.2.1 + 1, record :: t.2.2)

/-- Embedding of `POST /api/campaigns/:id/send`.  Note the route has
no guard on `campaign.status`: it never reads the status, only
overwrites it at the end. -/
def sendCampaign (campaigns : List Campaign) (segments : List Segment)
    (customers : List Customer) (log : List CommRecord) (campaignId : String)
    (success : Nat → Bool) (mkId : Nat → String) (now : String) : SendOutcome :=
  match campaigns.find? (fun c => c.id == campaignId) with
  | none => .campaignNotFound
  | some campaign =>
    match segments.find? (fun s => s.id == campaign.segmentId) with
    | none => .segmentNotFound
    | some segment =>
      let audience := customers.filter
        (fun c => evalConditions c segment.conditions segment.logic)
      if audience.length == 0 then
        -- campaign.status = 'NO_AUDIENCE'; write campaigns; zero counts, no log write
        let campaigns2 := mutateFirst (fun c => c.id == campaignId)
          (fun c => { c with status := "NO_AUDIENCE" }) campaigns
        .ok { audience_count := 0, sent := 0, failed := 0, sample := [] } campaigns2 log
      else
        let t := dispatchLoop campaign success mkId now audience 0
        -- campaign.status = failed === 0 ? 'SENT' : 'PARTIAL_FAILED'; write campaigns
        let campaigns2 := mutateFirst (fun c => c.id == campaignId)
          (fun c => { c with status := if t.2.1 == 0 then "SENT" else "PARTIAL_FAILED" }) campaigns
        .ok { audience_count := audience.length, sent := t.1, failed := t.2.1,
              sample := t.2.2.take 5 } campaigns2 (log ++ t.2.2)

/-- A buffered delivery receipt.  `receivedAt` is optional only
because the reconciler defends with `r.receivedAt || new Date()`. -/
structure Receipt where
  campaignId : String
  customer_email : String
  status : String
  receivedAt : Option String
deriving DecidableEq

/-- Embedding of `Array.prototype.findIndex` (as `Option Nat` instead
of `-1`). -/
def firstMatchIdx (p : α → Bool) : List α → Option Nat
  | [] => none
  | x :: xs => if p x then some 0 else (firstMatchIdx p xs).map (· + 1)

/-- In-place mutation of the element at a given index
(`logs[idx].status = ...`). -/
def modifyAt (f : α → α) : List α → Nat → List α
  | [], _ => []
  | x :: xs, 0 => f x :: xs
  | x :: xs, i + 1 => x :: modifyAt f xs i

/-- The reconciler's correlation predicate:
`l.campaignId === r.campaignId && l.customer_email === r.customer_email`. -/
def recMatches (r : Receipt) (l : CommRecord) : Bool :=
  l.campaignId == r.campaignId && l.customer_email == r.customer_email

/-- The reconciler's per-match update:
`logs[idx].status = r.status; logs[idx].deliveredAt = r.receivedAt || new Date().toISOString();`. -/
def applyReceipt (r : Receipt) (now : String) (l : CommRecord) : CommRecord :=
  { l with status := r.status, deliveredAt := some (r.receivedAt.getD now) }

/-- One iteration of the reconciler's `receipts.forEach`: find the
first matching log record; on a match mutate it and set the `updated`
flag, otherwise leave the state untouched. -/
def receiptStep (now : String) (st : List CommRecord × Bool) (r : Receipt) :
    List CommRecord × Bool :=
  match firstMatchIdx (recMatches r) st.1 with
  | none => st
  | some idx => (modifyAt (applyReceipt r now) st.1 idx, true)

/-- Result of one reconciliation tick: the communication log as it
stands after the tick, whether the log file was rewritten
(`if (updated) writeJsonSafe(COMM_LOG_FILE, logs)`), and the receipt
buffer after the tick. -/
structure TickResult where
  logs : List CommRecord
  persisted : Bool
  buffer : List Receipt
deriving DecidableEq

/-- Embedding of `processReceiptsBatch`: early return on an empty
buffer, otherwise fold the per-receipt step over the buffer, persist
the log only if some receipt matched, and clear the buffer. -/
def processReceiptsBatch (receipts : List Receipt) (logs : List CommRecord)
    (now : String) : TickResult :=
  if receipts.isEmpty then { logs := logs, persisted := false, buffer := receipts }
  else
    let st := receipts.foldl (receiptStep now) (logs, false)
    { logs := st.1, persisted := st.2, buffer := [] }

/-- The validated order-ingestion input (post Joi validation):
`amount` is a non-negative number, `dateTs` is the timestamp of
`new Date(value.date)` whose ISO string becomes the stored order date. -/
structure OrderInput where
  customer_email : String
  amount : Rat
  dateTs : Int

/-- A stored order (fields relevant to the rollup). -/
structure Order where
  id : String
  customer_email : String
  amount : Rat
  date : Int
deriving DecidableEq

/-! #### Binary64 (IEEE-754 double) model

The order rollup runs on JS numbers, which are binary64 doubles; the
exact-rational model must therefore reproduce binary64 rounding, since
for example the literal `25.555` parses to the double
`7193093029840814 / 2^48 = 25.554999…`, whose `toFixed(2)` is
`"25.55"`, not `"25.56"`.  A double is modelled as the exact rational
it denotes; `flQ num den` rounds the rational `num / den` to the
nearest double (round-to-nearest, ties-to-even), covering the normal
range only (no overflow, subnormal, NaN or `-0` handling — the CRM's
monetary magnitudes never leave the normal range). -/

/-- Number of binary digits of `n` (0 for 0), driven by a structural
fuel; fuel `n` suffices because `n / 2` reaches 0 within `n` steps. -/
def bitlenAux : Nat → Nat → Nat
  | 0, _ => 0
  | fuel + 1, n => if n = 0 then 0 else bitlenAux fuel (n / 2) + 1

/-- Bit length of a natural number. -/
def bitlen (n : Nat) : Nat := bitlenAux n n

/-- `⌊log₂ (n / d)⌋` for positive `n d`: the bit-length difference is
off by at most one, and the comparison `2^g ≤ n/d` (cross-multiplied)
corrects it. -/
def floorLog2 (n d : Nat) : Int :=
  let g : Int := (bitlen n : Int) - (bitlen d : Int)
  if 0 ≤ g then (if d * 2 ^ g.toNat ≤ n then g else g - 1)
  else (if d ≤ n * 2 ^ (-g).toNat then g else g - 1)

/-- Core of binary64 rounding of `|num| / den` (`num ≠ 0`, `den > 0`):
scale into `[2^52, 2^53)` (53-bit significand), split integer part and
remainder, and round to nearest with ties to even.  Returns the result
as a numerator/denominator pair with the power of two applied, so the
whole computation is on naturals.  The algorithm reads only the value
`num / den`, not the representation. -/
def flPair (num : Int) (den : Nat) : Nat × Nat :=
  let n := num.natAbs
  let e : Int := floorLog2 n den - 52
  let A := if 0 ≤ e then n else n * 2 ^ (-e).toNat
  let B := if 0 ≤ e then den * 2 ^ e.toNat else den
  let m0 := A / B
  let r := A - m0 * B
  let m := if 2 * r < B then m0
    else if B < 2 * r then m0 + 1
    else if m0 % 2 = 0 then m0 else m0 + 1
  if 0 ≤ e then (m * 2 ^ e.toNat, 1) else (m, 2 ^ (-e).toNat)

/-- The binary64 double nearest to `num / den`, as the exact rational
it denotes. -/
def flQ (num : Int) (den : Nat) : Rat :=
  if num = 0 then 0
  else
    let p := flPair num den
    if num < 0 then mkRat (-(p.1 : Int)) p.2 else mkRat (p.1 : Int) p.2

/-- JS `+` on numbers: the exact sum of the two doubles, rounded back
to binary64 (the cross-multiplied fraction is an exact representation
of `a + b`). -/
def jsAdd (a b : Rat) : Rat :=
  flQ (a.num * (b.den : Int) + b.num * (a.den : Int)) (a.den * b.den)

/-- The integer `n` produced by `x.toFixed(2)` (ECMA-262): with
`y = |x|`, the integer `n` with `n / 100` closest to `y` and ties to
the larger `n` — that is `⌊100 y + 1/2⌋`, written as the Euclidean
division `(200 num + den) / (2 den)` on the fraction — and the sign
re-applied to the digit string. -/
def toFixed2Int (x : Rat) : Int :=
  if x.num < 0 then -(Int.ediv (200 * (-x.num) + (x.den : Int)) (2 * (x.den : Int)))
  else Int.ediv (200 * x.num + (x.den : Int)) (2 * (x.den : Int))

/-- `Number(x.toFixed(2))`: the decimal string `n / 100` read back as
the nearest double. -/
def jsRound2 (x : Rat) : Rat := flQ (toFixed2Int x) 100

/-- Modelled from the spec's words, for comparison with the code's
rounding: "total_spent … rounded to 2 decimal places (25.56 …)" reads
as the nearest multiple of 1/100 of the exact sum, ties up.  The code
instead applies `toFixed(2)` to the binary64 sum (`jsRound2 ∘ jsAdd`),
which differs at the spec's own test amount. -/
def specRound2 (q : Rat) : Rat :=
  (⌊q * 100 + 1 / 2⌋ : Int) / 100

/-- Outcome of `POST /api/orders` (synchronous path): the 404
customer-not-found path creates nothing; the 201 path returns the new
order together with the customers and orders arrays as persisted. -/
inductive OrdersOutcome where
  | customerNotFound
  | created (order : Order) (customers : List Customer) (orders : List Order)
deriving DecidableEq

/-- Embedding of `POST /api/orders` (synchronous path): look the
customer up by lowercased email, 404 if absent; otherwise append the
order and roll up the found customer's `total_spent`
(`Number((Number(customer.total_spent || 0) + Number(newOrder.amount)).toFixed(2))`,
a binary64 addition followed by `toFixed(2)` and a read-back:
`jsRound2 (jsAdd … …)`) and `last_order_date` (the order's date). -/
def postOrders (customers : List Customer) (orders : List Order) (inp : OrderInput)
    (mkId : String) : OrdersOutcome :=
  match customers.find? (fun c => jsToLower c.email == jsToLower inp.customer_email) with
  | none => .customerNotFound
  | some _ =>
    let newOrder : Order :=
      { id := mkId, customer_email := jsToLower inp.customer_email,
        amount := inp.amount, date := inp.dateTs }
    let orders2 := orders ++ [newOrder]
    let customers2 := mutateFirst (fun c => jsToLower c.email == jsToLower inp.customer_email)
      (fun c => { c with
        total_spent := some (jsRound2 (jsAdd (c.total_spent.getD 0) newOrder.amount)),
        last_order_date := some (some newOrder.date) }) customers
    .created newOrder customers2 orders2

end Crm

namespace Crm

/-! ### Rule-evaluator claims -/

/-- Claim C6: for conditions on field `total_spent`, a missing
customer `total_spent` is treated as 0 — evaluation is unchanged by
replacing the missing field with 0, and in particular
`Match({}, {field: total_spent, op: eq, value: 0})` is true — and a
condition whose `value` is not numeric (`Number(value)` is NaN) makes
`matchCondition` return false for every operator. -/
theorem matchCondition_total_spent_missing_and_nonnumeric
    (c : Customer) (op : Op) (v : CondValue) :
    (c.total_spent = none →
      matchCondition c ⟨.total_spent, op, v⟩ =
        matchCondition { c with total_spent := some 0 } ⟨.total_spent, op, v⟩) ∧
    (c.total_spent = none → v.asNum = some 0 →
      matchCondition c ⟨.total_spent, .eq, v⟩ = true) ∧
    (v.asNum = none → matchCondition c ⟨.total_spent, op, v⟩ = false) := by
  refine ⟨fun h => ?_, fun h h0 => ?_, fun h => ?_⟩
  · simp [matchCondition, h]
  · simp [matchCondition, h, h0, numCmp]
  · simp [matchCondition, h]

/-- Witness for C6 at concrete inputs: the empty customer matches
`total_spent eq 0`, and a NaN-valued condition is false. -/
theorem matchCondition_total_spent_missing_and_nonnumeric_witness :
    matchCondition ⟨"a@b.com", none, none⟩ ⟨.total_spent, .eq, ⟨some 0, none, "0"⟩⟩ = true ∧
    matchCondition ⟨"a@b.com", none, none⟩ ⟨.total_spent, .gt, ⟨none, none, "x"⟩⟩ = false :=
  ⟨(matchCondition_total_spent_missing_and_nonnumeric ⟨"a@b.com", none, none⟩ .eq
      ⟨some 0, none, "0"⟩).2.1 rfl rfl,
   (matchCondition_total_spent_missing_and_nonnumeric ⟨"a@b.com", none, none⟩ .gt
      ⟨none, none, "x"⟩).2.2 rfl⟩

/-- Claim C7: for conditions on field `last_order_date`, a missing
customer date is compared as timestamp 0 (the epoch), so with operator
`lt` against a value parsing to a positive timestamp (such as
"2024-01-01") the match is true; and a condition whose value does not
parse as a date makes `matchCondition` return false for every
operator. -/
theorem matchCondition_last_order_date_epoch_and_unparseable
    (c : Customer) (op : Op) (v : CondValue) (t : Int) :
    (c.last_order_date = none → v.asDate = some t →
      matchCondition c ⟨.last_order_date, .lt, v⟩ = decide ((0 : Int) < t)) ∧
    (v.asDate = none → matchCondition c ⟨.last_order_date, op, v⟩ = false) := by
  refine ⟨fun h ht => ?_, fun h => ?_⟩
  · simp [matchCondition, h, ht, tsCmp]
  · simp [matchCondition, h]

/-- Witness for C7: a null `last_order_date` against
`lt "2024-01-01"` (timestamp 1704067200000) is true, and an
unparseable condition value yields false. -/
theorem matchCondition_last_order_date_epoch_and_unparseable_witness :
    matchCondition ⟨"a@b.com", none, none⟩
      ⟨.last_order_date, .lt, ⟨none, some 1704067200000, "2024-01-01"⟩⟩ = true ∧
    matchCondition ⟨"a@b.com", none, none⟩
      ⟨.last_order_date, .gte, ⟨none, none, "not-a-date"⟩⟩ = false :=
  ⟨by
    have h := (matchCondition_last_order_date_epoch_and_unparseable
      ⟨"a@b.com", none, none⟩ .lt ⟨none, some 1704067200000, "2024-01-01"⟩
      1704067200000).1 rfl rfl
    simpa using h,
   (matchCondition_last_order_date_epoch_and_unparseable
      ⟨"a@b.com", none, none⟩ .gte ⟨none, none, "not-a-date"⟩ 0).2 rfl⟩

/-- Claim C10: when the customer's `last_order_date` is present but
does not parse as a date (`Date.parse` gives NaN) and the condition's
value does parse, `matchCondition` is false for `gt, gte, lt, lte, eq`
and true for `neq` (JS NaN comparison semantics). -/
theorem matchCondition_last_order_date_nan_left
    (c : Customer) (op : Op) (v : CondValue) (t : Int)
    (hc : c.last_order_date = some none) (hv : v.asDate = some t) :
    matchCondition c ⟨.last_order_date, op, v⟩ = (op == .neq) := by
  cases op <;> simp [matchCondition, hc, hv, tsCmp]

/-- Witness for C10: a customer with an unparseable stored date is
`neq` (true) but not `lt` (false) any parseable value. -/
theorem matchCondition_last_order_date_nan_left_witness :
    matchCondition ⟨"a@b.com", none, some none⟩
      ⟨.last_order_date, .neq, ⟨none, some 1704067200000, "2024-01-01"⟩⟩ = true ∧
    matchCondition ⟨"a@b.com", none, some none⟩
      ⟨.last_order_date, .lt, ⟨none, some 1704067200000, "2024-01-01"⟩⟩ = false :=
  ⟨by
    have h := matchCondition_last_order_date_nan_left ⟨"a@b.com", none, some none⟩ .neq
      ⟨none, some 1704067200000, "2024-01-01"⟩ 1704067200000 rfl rfl
    simpa using h,
   by
    have h := matchCondition_last_order_date_nan_left ⟨"a@b.com", none, some none⟩ .lt
      ⟨none, some 1704067200000, "2024-01-01"⟩ 1704067200000 rfl rfl
    simpa using h⟩

end Crm

namespace Crm

/-! ### Dispatch-loop structure lemmas -/

/-- Structural facts about one dispatch loop run: one record per
matched customer (emails in order), every record status `SENT` or
`FAILED`, and the counters partition the audience with `sent`
counting the `SENT` records. -/
theorem dispatchLoop_spec (campaign : Campaign) (success : Nat → Bool)
    (mkId : Nat → String) (now : String) :
    ∀ (cs : List Customer) (i : Nat),
    (dispatchLoop campaign success mkId now cs i).2.2.length = cs.length ∧
    (dispatchLoop campaign success mkId now cs i).2.2.map (fun r => r.customer_email) =
      cs.map (fun c => c.email) ∧
    (∀ r ∈ (dispatchLoop campaign success mkId now cs i).2.2,
      r.status = "SENT" ∨ r.status = "FAILED") ∧
    (dispatchLoop campaign success mkId now cs i).1 +
      (dispatchLoop campaign success mkId now cs i).2.1 = cs.length ∧
    (dispatchLoop campaign success mkId now cs i).1 =
      ((dispatchLoop campaign success mkId now cs i).2.2.filter
        (fun r => r.status == "SENT")).length := by
  intro cs
  induction cs with
  | nil => intro i; simp [dispatchLoop]
  | cons cust rest ih =>
    intro i
    obtain ⟨ih1, ih2, ih3, ih4, ih5⟩ := ih (i + 1)
    cases hsucc : success i <;>
      simp only [dispatchLoop, hsucc, if_true, if_false, Bool.false_eq_true] <;>
      refine ⟨by simp [ih1], by simp [ih2], ?_, by simp only [List.length_cons]; omega, ?_⟩
    · intro r hr
      rcases List.mem_cons.mp hr with h | h
      · right; rw [h]
      · exact ih3 r h
    · simpa using ih5
    · intro r hr
      rcases List.mem_cons.mp hr with h | h
      · left; rw [h]
      · exact ih3 r h
    · simpa using ih5

end Crm

namespace Crm

/-- Claim C4: when the campaign's segment matches zero customers, the
send route sets the campaign status to `NO_AUDIENCE`, returns
`audience_count`, `sent` and `failed` all 0 with an empty sample, and
leaves the communication log unchanged. -/
theorem sendCampaign_no_audience
    (campaigns : List Campaign) (segments : List Segment) (customers : List Customer)
    (log : List CommRecord) (campaignId : String) (success : Nat → Bool)
    (mkId : Nat → String) (now : String) (campaign : Campaign) (segment : Segment)
    (hc : campaigns.find? (fun c => c.id == campaignId) = some campaign)
    (hs : segments.find? (fun s => s.id == campaign.segmentId) = some segment)
    (hm : customers.filter (fun c => evalConditions c segment.conditions segment.logic) = []) :
    sendCampaign campaigns segments customers log campaignId success mkId now =
      .ok { audience_count := 0, sent := 0, failed := 0, sample := [] }
        (mutateFirst (fun c => c.id == campaignId)
          (fun c => { c with status := "NO_AUDIENCE" }) campaigns)
        log := by
  simp [sendCampaign, hc, hs, hm]

/-- Witness for C4: a campaign over a segment no customer matches
returns zero counts and appends nothing. -/
theorem sendCampaign_no_audience_witness :
    sendCampaign [⟨"c1", "s1", "hello", "CREATED"⟩]
      [⟨"s1", [⟨.total_spent, .gt, ⟨some 1000, none, "1000"⟩⟩], .AND⟩]
      [⟨"a@b.com", some 100, none⟩]
      [⟨"r0", "c9", "z@z.com", "SENT", "old", "T0", none⟩]
      "c1" (fun _ => true) (fun _ => "r1") "T1" =
      .ok { audience_count := 0, sent := 0, failed := 0, sample := [] }
        [⟨"c1", "s1", "hello", "NO_AUDIENCE"⟩]
        [⟨"r0", "c9", "z@z.com", "SENT", "old", "T0", none⟩] := by
  have h := sendCampaign_no_audience
    [⟨"c1", "s1", "hello", "CREATED"⟩]
    [⟨"s1", [⟨.total_spent, .gt, ⟨some 1000, none, "1000"⟩⟩], .AND⟩]
    [⟨"a@b.com", some 100, none⟩]
    [⟨"r0", "c9", "z@z.com", "SENT", "old", "T0", none⟩]
    "c1" (fun _ => true) (fun _ => "r1") "T1"
    ⟨"c1", "s1", "hello", "CREATED"⟩
    ⟨"s1", [⟨.total_spent, .gt, ⟨some 1000, none, "1000"⟩⟩], .AND⟩
    (by decide) (by decide) (by decide)
  simpa [mutateFirst] using h

/-- Claim C3: when the resolved audience is non-empty, the send route
appends exactly one log record per matched customer (same emails, in
order), each with status `SENT` or `FAILED`; the campaign status
becomes `SENT` when `failed = 0` and `PARTIAL_FAILED` otherwise (and
that written status is never `NO_AUDIENCE`); and the response carries
the audience size, the sent and failed counters (which partition the
audience, `sent` counting the `SENT` records) and the first 5 appended
records as the sample. -/
theorem sendCampaign_dispatch
    (campaigns : List Campaign) (segments : List Segment) (customers : List Customer)
    (log : List CommRecord) (campaignId : String) (success : Nat → Bool)
    (mkId : Nat → String) (now : String) (campaign : Campaign) (segment : Segment)
    (audience : List Customer)
    (hc : campaigns.find? (fun c => c.id == campaignId) = some campaign)
    (hs : segments.find? (fun s => s.id == campaign.segmentId) = some segment)
    (ha : customers.filter (fun c => evalConditions c segment.conditions segment.logic)
            = audience)
    (hne : audience ≠ []) :
    sendCampaign campaigns segments customers log campaignId success mkId now =
      .ok { audience_count := audience.length,
            sent := (dispatchLoop campaign success mkId now audience 0).1,
            failed := (dispatchLoop campaign success mkId now audience 0).2.1,
            sample := (dispatchLoop campaign success mkId now audience 0).2.2.take 5 }
        (mutateFirst (fun c => c.id == campaignId)
          (fun c => { c with status :=
            if (dispatchLoop campaign success mkId now audience 0).2.1 == 0
            then "SENT" else "PARTIAL_FAILED" }) campaigns)
        (log ++ (dispatchLoop campaign success mkId now audience 0).2.2) ∧
    (dispatchLoop campaign success mkId now audience 0).2.2.length = audience.length ∧
    (dispatchLoop campaign success mkId now audience 0).2.2.map
      (fun r => r.customer_email) = audience.map (fun c => c.email) ∧
    (∀ r ∈ (dispatchLoop campaign success mkId now audience 0).2.2,
      r.status = "SENT" ∨ r.status = "FAILED") ∧
    (dispatchLoop campaign success mkId now audience 0).1 +
      (dispatchLoop campaign success mkId now audience 0).2.1 = audience.length ∧
    (dispatchLoop campaign success mkId now audience 0).1 =
      ((dispatchLoop campaign success mkId now audience 0).2.2.filter
        (fun r => r.status == "SENT")).length ∧
    ((if (dispatchLoop campaign success mkId now audience 0).2.1 == 0
      then "SENT" else "PARTIAL_FAILED") : String) ≠ "NO_AUDIENCE" := by
  obtain ⟨h1, h2, h3, h4, h5⟩ := dispatchLoop_spec campaign success mkId now audience 0
  have hlen : (audience.length == 0) = false := by
    cases audience with
    | nil => exact absurd rfl hne
    | cons a as => simp
  refine ⟨?_, h1, h2, h3, h4, h5, ?_⟩
  · simp only [sendCampaign, hc, hs, ha, hlen, if_false, Bool.false_eq_true]
  · cases hz : ((dispatchLoop campaign success mkId now audience 0).2.1 == 0) <;> simp

end Crm

namespace Crm

/-- Witness for C3: one matched customer with a forced success gives
one appended `SENT` record, counts 1/0, campaign status `SENT`. -/
theorem sendCampaign_dispatch_witness :
    sendCampaign [⟨"c1", "s1", "hello", "CREATED"⟩]
      [⟨"s1", [⟨.total_spent, .gte, ⟨some 0, none, "0"⟩⟩], .AND⟩]
      [⟨"a@b.com", some 100, none⟩] [] "c1" (fun _ => true) (fun _ => "r1") "T1" =
      .ok { audience_count := 1, sent := 1, failed := 0,
            sample := [⟨"r1", "c1", "a@b.com", "SENT", "hello", "T1", none⟩] }
        [⟨"c1", "s1", "hello", "SENT"⟩]
        [⟨"r1", "c1", "a@b.com", "SENT", "hello", "T1", none⟩] := by
  have h := sendCampaign_dispatch [⟨"c1", "s1", "hello", "CREATED"⟩]
    [⟨"s1", [⟨.total_spent, .gte, ⟨some 0, none, "0"⟩⟩], .AND⟩]
    [⟨"a@b.com", some 100, none⟩] [] "c1" (fun _ => true) (fun _ => "r1") "T1"
    ⟨"c1", "s1", "hello", "CREATED"⟩
    ⟨"s1", [⟨.total_spent, .gte, ⟨some 0, none, "0"⟩⟩], .AND⟩
    [⟨"a@b.com", some 100, none⟩]
    (by decide) (by decide) (by decide) (by decide)
  rw [h.1]; decide

/-- Claim C1 is refuted by the code: the send route never reads the
campaign's status, so a campaign already in the terminal status `SENT`
is simply re-dispatched.  Concretely, with one prior log record for
the pair, a second send appends a fresh record (the log grows from one
to two records) and reports sent = 1, failed = 0 — not a no-op or
rejection. -/
theorem sendCampaign_redispatches_terminal_campaign :
    sendCampaign [⟨"c1", "s1", "hello", "SENT"⟩]
      [⟨"s1", [⟨.total_spent, .gte, ⟨some 0, none, "0"⟩⟩], .AND⟩]
      [⟨"a@b.com", some 100, none⟩]
      [⟨"r0", "c1", "a@b.com", "SENT", "hello", "T0", none⟩]
      "c1" (fun _ => true) (fun _ => "r1") "T1" =
      .ok { audience_count := 1, sent := 1, failed := 0,
            sample := [⟨"r1", "c1", "a@b.com", "SENT", "hello", "T1", none⟩] }
        [⟨"c1", "s1", "hello", "SENT"⟩]
        [⟨"r0", "c1", "a@b.com", "SENT", "hello", "T0", none⟩,
         ⟨"r1", "c1", "a@b.com", "SENT", "hello", "T1", none⟩] := by
  decide

end Crm

namespace Crm

/-! ### Reconciler infrastructure lemmas -/

/-- The correlation key of a log record. -/
def pairOf (l : CommRecord) : String × String := (l.campaignId, l.customer_email)

/-- The predicate "log record carries pair (cid, em)". -/
def pairPred (cid em : String) (l : CommRecord) : Bool :=
  l.campaignId == cid && l.customer_email == em

/-- The predicate "receipt carries pair (cid, em)". -/
def receiptHasPair (cid em : String) (r : Receipt) : Bool :=
  r.campaignId == cid && r.customer_email == em

theorem modifyAt_get? (f : α → α) :
    ∀ (xs : List α) (i j : Nat),
    (modifyAt f xs i).get? j = if i = j then (xs.get? j).map f else xs.get? j := by
  intro xs
  induction xs with
  | nil => intro i j; cases i <;> cases j <;> simp [modifyAt]
  | cons x xs ih =>
    intro i j
    cases i with
    | zero => cases j <;> simp [modifyAt]
    | succ i =>
      cases j with
      | zero => simp [modifyAt]
      | succ j => simpa [modifyAt, Nat.succ_inj] using ih i j

theorem firstMatchIdx_found (p : α → Bool) :
    ∀ (xs : List α) (i : Nat), firstMatchIdx p xs = some i →
    ∃ x, xs.get? i = some x ∧ p x = true := by
  intro xs
  induction xs with
  | nil => intro i h; simp [firstMatchIdx] at h
  | cons a as ih =>
    intro i h
    by_cases hp : p a
    · simp [firstMatchIdx, hp] at h
      exact ⟨a, by simp [← h], hp⟩
    · simp [firstMatchIdx, hp] at h
      obtain ⟨j, hj, hij⟩ := h
      obtain ⟨x, hx, hpx⟩ := ih j hj
      exact ⟨x, by simp only [← hij, List.get?_cons_succ]; exact hx, hpx⟩

/-- `firstMatchIdx` for a predicate that reads only the correlation
pair depends only on the pairs. -/
theorem firstMatchIdx_pair_congr (q : String × String → Bool) :
    ∀ (xs ys : List CommRecord), xs.map pairOf = ys.map pairOf →
    firstMatchIdx (fun l => q (pairOf l)) xs = firstMatchIdx (fun l => q (pairOf l)) ys := by
  intro xs
  induction xs with
  | nil => intro ys h; cases ys <;> simp_all [firstMatchIdx]
  | cons x xs ih =>
    intro ys h
    cases ys with
    | nil => simp at h
    | cons y ys =>
      simp only [List.map_cons, List.cons.injEq] at h
      simp [firstMatchIdx, h.1, ih ys h.2]

theorem map_pairOf_modifyAt (f : CommRecord → CommRecord)
    (hf : ∀ l, pairOf (f l) = pairOf l) :
    ∀ (xs : List CommRecord) (i : Nat),
    (modifyAt f xs i).map pairOf = xs.map pairOf := by
  intro xs
  induction xs with
  | nil => intro i; simp [modifyAt]
  | cons x xs ih =>
    intro i
    cases i with
    | zero => simp [modifyAt, hf]
    | succ i => simp [modifyAt, ih i]

theorem pairOf_applyReceipt (r : Receipt) (now : String) (l : CommRecord) :
    pairOf (applyReceipt r now l) = pairOf l := rfl

theorem map_pairOf_receiptStep (now : String) (st : List CommRecord × Bool) (r : Receipt) :
    (receiptStep now st r).1.map pairOf = st.1.map pairOf := by
  unfold receiptStep
  cases h : firstMatchIdx (recMatches r) st.1 with
  | none => rfl
  | some idx => simpa using map_pairOf_modifyAt (applyReceipt r now) (fun _ => rfl) st.1 idx

end Crm

namespace Crm

/-- Core reconciler fold property: fix a correlation pair `(cid, em)`
whose first matching log record sits at `idx`.  Folding the
per-receipt step over the whole buffer leaves that index in place (the
step never changes a record's pair) and the record there ends up as
the receipts carrying that pair, applied in buffer order, to the
original record. -/
theorem foldl_receiptStep_get (now cid em : String) :
    ∀ (rs : List Receipt) (st : List CommRecord × Bool) (idx : Nat) (x : CommRecord),
    firstMatchIdx (pairPred cid em) st.1 = some idx →
    st.1.get? idx = some x →
    ((rs.foldl (receiptStep now) st).1).get? idx =
      some ((rs.filter (receiptHasPair cid em)).foldl (fun l r => applyReceipt r now l) x) := by
  intro rs
  induction rs with
  | nil => intro st idx x hidx hx; simpa using hx
  | cons r rest ih =>
    intro st idx x hidx hx
    have hpair : (receiptStep now st r).1.map pairOf = st.1.map pairOf :=
      map_pairOf_receiptStep now st r
    have hidx2 : firstMatchIdx (pairPred cid em) (receiptStep now st r).1 = some idx := by
      have hcongr := firstMatchIdx_pair_congr (fun pr => pr.1 == cid && pr.2 == em)
        (receiptStep now st r).1 st.1 hpair
      exact hcongr.trans hidx
    by_cases hr : receiptHasPair cid em r = true
    · -- the receipt carries the tracked pair: it hits exactly index idx
      have hrc : r.campaignId = cid ∧ r.customer_email = em := by
        simpa [receiptHasPair] using hr
      obtain ⟨hrc1, hrc2⟩ := hrc
      subst hrc1; subst hrc2
      have hfm : firstMatchIdx (recMatches r) st.1 = some idx := hidx
      have hstep : receiptStep now st r = (modifyAt (applyReceipt r now) st.1 idx, true) := by
        simp [receiptStep, hfm]
      have hx2 : (receiptStep now st r).1.get? idx = some (applyReceipt r now x) := by
        rw [hstep, modifyAt_get?, if_pos rfl, hx]; rfl
      have hfil : (r :: rest).filter
          (receiptHasPair r.campaignId r.customer_email) =
          r :: rest.filter (receiptHasPair r.campaignId r.customer_email) := by
        simp [hr]
      rw [List.foldl_cons, hfil, List.foldl_cons]
      exact ih (receiptStep now st r) idx (applyReceipt r now x) hidx2 hx2
    · -- the receipt carries a different pair: index idx is untouched
      have hx2 : (receiptStep now st r).1.get? idx = some x := by
        unfold receiptStep
        cases h2 : firstMatchIdx (recMatches r) st.1 with
        | none => exact hx
        | some idx2 =>
          have hne : idx2 ≠ idx := by
            intro he
            subst he
            obtain ⟨y, hy, hpy⟩ := firstMatchIdx_found (recMatches r) st.1 idx2 h2
            obtain ⟨x2, hx2, hpx2⟩ :=
              firstMatchIdx_found (pairPred cid em) st.1 idx2 hidx
            rw [hx] at hy hx2
            cases hy
            cases hx2
            have h3 : x.campaignId = r.campaignId ∧ x.customer_email = r.customer_email := by
              simpa [recMatches] using hpy
            have h4 : x.campaignId = cid ∧ x.customer_email = em := by
              simpa [pairPred] using hpx2
            exact hr (by simp [receiptHasPair, ← h3.1, ← h3.2, h4.1, h4.2])
          simp only [modifyAt_get?, if_neg hne]
          exact hx
      have hfil : (r :: rest).filter (receiptHasPair cid em) =
          rest.filter (receiptHasPair cid em) := by
        simp [List.filter_cons, hr]
      rw [List.foldl_cons, hfil]
      exact ih (receiptStep now st r) idx x hidx2 hx2

end Crm

namespace Crm

/-- Applying a non-empty run of receipts in order overwrites `status`
and `deliveredAt` each time, so the final values are the last
receipt's. -/
theorem foldl_applyReceipt_last (now : String) :
    ∀ (ms : List Receipt) (rlast : Receipt) (x : CommRecord),
    ms.getLast? = some rlast →
    ms.foldl (fun l r => applyReceipt r now l) x =
      { x with status := rlast.status,
               deliveredAt := some (rlast.receivedAt.getD now) } := by
  intro ms
  induction ms with
  | nil => intro rlast x h; simp at h
  | cons m rest ih =>
    intro rlast x h
    cases rest with
    | nil =>
      simp only [List.getLast?_singleton, Option.some.injEq] at h
      subst h
      rfl
    | cons m2 rest2 =>
      rw [List.getLast?_cons_cons] at h
      rw [List.foldl_cons]
      rw [ih rlast (applyReceipt m now x) h]
      rfl

/-- Claim C2: a receipt whose pair matches an existing log record (at
the first matching position `idx`, and being the only buffered receipt
for that pair) is applied by one reconciliation tick: the record's
`status` is overwritten with the receipt's status, `deliveredAt`
becomes the receipt's `receivedAt` (or the tick's current time when
absent), and the receipt buffer is empty after the tick. -/
theorem processReceiptsBatch_applies_matched_receipt
    (rs : List Receipt) (logs : List CommRecord) (now cid em : String)
    (r : Receipt) (idx : Nat) (x : CommRecord)
    (hfil : rs.filter (receiptHasPair cid em) = [r])
    (hidx : firstMatchIdx (pairPred cid em) logs = some idx)
    (hx : logs.get? idx = some x) :
    (processReceiptsBatch rs logs now).logs.get? idx =
      some { x with status := r.status,
                    deliveredAt := some (r.receivedAt.getD now) } ∧
    (processReceiptsBatch rs logs now).buffer = [] := by
  have hne : rs.isEmpty = false := by
    cases rs with
    | nil => simp at hfil
    | cons a as => rfl
  have hfold := foldl_receiptStep_get now cid em rs (logs, false) idx x hidx hx
  rw [hfil] at hfold
  simp only [List.foldl_cons, List.foldl_nil] at hfold
  constructor
  · simp only [processReceiptsBatch, hne, Bool.false_eq_true, if_false]
    rw [hfold]
    rfl
  · simp [processReceiptsBatch, hne]

/-- Witness for C2: one DELIVERED receipt against a SENT record with
no `deliveredAt` updates that record and empties the buffer. -/
theorem processReceiptsBatch_applies_matched_receipt_witness :
    (processReceiptsBatch [⟨"c1", "a@b.com", "DELIVERED", some "T2"⟩]
      [⟨"r0", "c1", "a@b.com", "SENT", "hello", "T1", none⟩] "T3").logs.get? 0 =
      some ⟨"r0", "c1", "a@b.com", "DELIVERED", "hello", "T1", some "T2"⟩ ∧
    (processReceiptsBatch [⟨"c1", "a@b.com", "DELIVERED", some "T2"⟩]
      [⟨"r0", "c1", "a@b.com", "SENT", "hello", "T1", none⟩] "T3").buffer = [] := by
  have h := processReceiptsBatch_applies_matched_receipt
    [⟨"c1", "a@b.com", "DELIVERED", some "T2"⟩]
    [⟨"r0", "c1", "a@b.com", "SENT", "hello", "T1", none⟩]
    "T3" "c1" "a@b.com"
    ⟨"c1", "a@b.com", "DELIVERED", some "T2"⟩ 0
    ⟨"r0", "c1", "a@b.com", "SENT", "hello", "T1", none⟩
    (by decide) (by decide) (by decide)
  exact ⟨h.1.trans (by decide), h.2⟩

/-- Claim C9: when the buffer holds two or more receipts for the same
pair and a log record matches that pair, every such receipt is applied
in buffer order to the first matching record, so after the tick that
record carries the status and `deliveredAt` of the last such receipt
in the buffer; the buffer is empty afterwards. -/
theorem processReceiptsBatch_duplicate_receipts_last_wins
    (rs : List Receipt) (logs : List CommRecord) (now cid em : String)
    (rlast : Receipt) (idx : Nat) (x : CommRecord)
    (hlen : 2 ≤ (rs.filter (receiptHasPair cid em)).length)
    (hlast : (rs.filter (receiptHasPair cid em)).getLast? = some rlast)
    (hidx : firstMatchIdx (pairPred cid em) logs = some idx)
    (hx : logs.get? idx = some x) :
    (processReceiptsBatch rs logs now).logs.get? idx =
      some { x with status := rlast.status,
                    deliveredAt := some (rlast.receivedAt.getD now) } ∧
    (processReceiptsBatch rs logs now).buffer = [] := by
  have hne : rs.isEmpty = false := by
    cases rs with
    | nil => simp at hlen
    | cons a as => rfl
  have hfold := foldl_receiptStep_get now cid em rs (logs, false) idx x hidx hx
  rw [foldl_applyReceipt_last now (rs.filter (receiptHasPair cid em)) rlast x hlast]
    at hfold
  constructor
  · simp only [processReceiptsBatch, hne, Bool.false_eq_true, if_false]
    rw [hfold]
  · simp [processReceiptsBatch, hne]

/-- Witness for C9: two receipts for the same pair; the record ends
with the second receipt's status and `receivedAt`. -/
theorem processReceiptsBatch_duplicate_receipts_last_wins_witness :
    (processReceiptsBatch
      [⟨"c1", "a@b.com", "DELIVERED", some "T2"⟩,
       ⟨"c1", "a@b.com", "BOUNCED", some "T4"⟩]
      [⟨"r0", "c1", "a@b.com", "SENT", "hello", "T1", none⟩] "T3").logs.get? 0 =
      some ⟨"r0", "c1", "a@b.com", "BOUNCED", "hello", "T1", some "T4"⟩ ∧
    (processReceiptsBatch
      [⟨"c1", "a@b.com", "DELIVERED", some "T2"⟩,
       ⟨"c1", "a@b.com", "BOUNCED", some "T4"⟩]
      [⟨"r0", "c1", "a@b.com", "SENT", "hello", "T1", none⟩] "T3").buffer = [] := by
  have h := processReceiptsBatch_duplicate_receipts_last_wins
    [⟨"c1", "a@b.com", "DELIVERED", some "T2"⟩,
     ⟨"c1", "a@b.com", "BOUNCED", some "T4"⟩]
    [⟨"r0", "c1", "a@b.com", "SENT", "hello", "T1", none⟩]
    "T3" "c1" "a@b.com"
    ⟨"c1", "a@b.com", "BOUNCED", some "T4"⟩ 0
    ⟨"r0", "c1", "a@b.com", "SENT", "hello", "T1", none⟩
    (by decide) (by decide) (by decide) (by decide)
  exact ⟨h.1.trans (by decide), h.2⟩

end Crm

namespace Crm

/-- When no receipt in the buffer matches any log record, the fold
leaves the state untouched. -/
theorem foldl_receiptStep_no_match (now : String) :
    ∀ (rs : List Receipt) (logs : List CommRecord),
    (∀ r ∈ rs, firstMatchIdx (recMatches r) logs = none) →
    rs.foldl (receiptStep now) (logs, false) = (logs, false) := by
  intro rs
  induction rs with
  | nil => intro logs _; rfl
  | cons r rest ih =>
    intro logs h
    have hstep : receiptStep now (logs, false) r = (logs, false) := by
      simp [receiptStep, h r (by simp)]
    rw [List.foldl_cons, hstep]
    exact ih logs (fun r2 hr2 => h r2 (by simp [hr2]))

/-- Claim C5: a reconciliation tick in which no buffered receipt
matches any log record by `(campaignId, customer_email)` leaves the
log unchanged and does not re-persist it (`persisted = false`), every
unmatched receipt is silently discarded, and the buffer is empty after
the tick; by the same equation the log is persisted only when at least
one receipt matched. -/
theorem processReceiptsBatch_no_match
    (rs : List Receipt) (logs : List CommRecord) (now : String)
    (h : ∀ r ∈ rs, firstMatchIdx (recMatches r) logs = none) :
    processReceiptsBatch rs logs now =
      { logs := logs, persisted := false, buffer := [] } := by
  cases rs with
  | nil => rfl
  | cons r rest =>
    have hne : (r :: rest).isEmpty = false := rfl
    simp only [processReceiptsBatch, hne, Bool.false_eq_true, if_false]
    rw [foldl_receiptStep_no_match now (r :: rest) logs h]

/-- Witness for C5: a receipt for an unknown pair is discarded without
touching or re-persisting the log. -/
theorem processReceiptsBatch_no_match_witness :
    processReceiptsBatch [⟨"c9", "z@z.com", "DELIVERED", some "T2"⟩]
      [⟨"r0", "c1", "a@b.com", "SENT", "hello", "T1", none⟩] "T3" =
      { logs := [⟨"r0", "c1", "a@b.com", "SENT", "hello", "T1", none⟩],
        persisted := false, buffer := [] } := by
  exact processReceiptsBatch_no_match
    [⟨"c9", "z@z.com", "DELIVERED", some "T2"⟩]
    [⟨"r0", "c1", "a@b.com", "SENT", "hello", "T1", none⟩] "T3"
    (by decide)

/-! ### Order-ingestion claims -/

theorem find?_append_cons (p : α → Bool) (pre post : List α) (x : α)
    (hpre : ∀ a ∈ pre, p a = false) (hx : p x = true) :
    (pre ++ x :: post).find? p = some x := by
  induction pre with
  | nil => simp [List.find?_cons_of_pos, hx]
  | cons a as ih =>
    rw [List.cons_append, List.find?_cons_of_neg]
    · exact ih (fun b hb => hpre b (by simp [hb]))
    · simp [hpre a (by simp)]

theorem mutateFirst_append_cons (p : α → Bool) (f : α → α) (pre post : List α) (x : α)
    (hpre : ∀ a ∈ pre, p a = false) (hx : p x = true) :
    mutateFirst p f (pre ++ x :: post) = pre ++ f x :: post := by
  induction pre with
  | nil => simp [mutateFirst, hx]
  | cons a as ih =>
    rw [List.cons_append, mutateFirst, if_neg (by simp [hpre a (by simp)]),
      ih (fun b hb => hpre b (by simp [hb]))]
    rfl

/-- Sanity check of the binary64 model: the decimal 0.1 is not
representable; its nearest double is `3602879701896397 / 2^55`. -/
theorem flQ_tenth : flQ 1 10 = mkRat 3602879701896397 36028797018963968 := by decide

/-- Sanity check of the binary64 model: `flQ` does not return its
argument verbatim — `fl(1/10) ≠ 1/10`. -/
theorem flQ_tenth_inexact : flQ 1 10 ≠ mkRat 1 10 := by decide

/-- Claim C8 as the code implements it (amended): ingesting an order
with non-negative amount for an existing customer (the first store
entry whose lowercased email equals the order's lowercased email)
appends the order and updates that customer: `total_spent` becomes
`Number((total + amount).toFixed(2))` computed in binary64 — the sum
rounded to the nearest double, then to the nearest hundredth of that
double (ties to the larger), read back as a double — and
`last_order_date` becomes the order's date.  For an email matching no
stored customer the route fails with customer-not-found and creates no
order. -/
theorem postOrders_rollup_and_not_found
    (pre post : List Customer) (customer : Customer) (orders : List Order)
    (inp : OrderInput) (mkId : String)
    (hamt : 0 ≤ inp.amount)
    (hpre : ∀ c ∈ pre, (jsToLower c.email == jsToLower inp.customer_email) = false)
    (hcust : (jsToLower customer.email == jsToLower inp.customer_email) = true) :
    postOrders (pre ++ customer :: post) orders inp mkId =
      .created ⟨mkId, jsToLower inp.customer_email, inp.amount, inp.dateTs⟩
        (pre ++ { customer with
            total_spent := some (jsRound2 (jsAdd (customer.total_spent.getD 0) inp.amount)),
            last_order_date := some (some inp.dateTs) } :: post)
        (orders ++ [⟨mkId, jsToLower inp.customer_email, inp.amount, inp.dateTs⟩]) ∧
    (∀ customers2 : List Customer,
      (∀ c ∈ customers2, (jsToLower c.email == jsToLower inp.customer_email) = false) →
      postOrders customers2 orders inp mkId = .customerNotFound) := by
  constructor
  · have hfind := find?_append_cons
      (fun c : Customer => jsToLower c.email == jsToLower inp.customer_email)
      pre post customer hpre hcust
    have hmut := mutateFirst_append_cons
      (fun c : Customer => jsToLower c.email == jsToLower inp.customer_email)
      (fun c => { c with
        total_spent := some (jsRound2 (jsAdd (c.total_spent.getD 0) inp.amount)),
        last_order_date := some (some inp.dateTs) })
      pre post customer hpre hcust
    simp only [postOrders, hfind, hmut]
  · intro customers2 h2
    have hfind : customers2.find?
        (fun c : Customer => jsToLower c.email == jsToLower inp.customer_email) = none := by
      rw [List.find?_eq_none]
      intro c hc
      simp [h2 c hc]
    simp only [postOrders, hfind]

/-- Witness for the amended C8: the JSON amount 25.555 arrives as the
double `flQ 25555 1000` (= 25.554999…); onto a total of 10 the route
stores `flQ 3555 100`, the double displayed as 35.55, and updates the
date; an unknown email is rejected. -/
theorem postOrders_rollup_and_not_found_witness :
    postOrders [⟨"a@b.com", some 10, none⟩] []
      ⟨"A@B.com", flQ 25555 1000, 1700000000000⟩ "o1" =
      .created ⟨"o1", "a@b.com", flQ 25555 1000, 1700000000000⟩
        [⟨"a@b.com", some (flQ 3555 100), some (some 1700000000000)⟩]
        [⟨"o1", "a@b.com", flQ 25555 1000, 1700000000000⟩] ∧
    postOrders [] [] ⟨"A@B.com", flQ 25555 1000, 1700000000000⟩ "o1" = .customerNotFound := by
  have h := postOrders_rollup_and_not_found [] [] ⟨"a@b.com", some 10, none⟩ []
    ⟨"A@B.com", flQ 25555 1000, 1700000000000⟩ "o1"
    (by decide) (by intro c hc; simp at hc) (by decide)
  exact ⟨h.1.trans (by decide), h.2 [] (by intro c hc; simp at hc)⟩

/-- Counterexample to C8 as stated: the claim (with the spec's own
test, property 9) asks for the exact decimal sum rounded to 2 places —
`specRound2 (10 + 25.555) = 35.56` — but the route computes
`toFixed(2)` of the binary64 sum.  Parsing the order amount 25.555
yields the double `flQ 25555 1000 = 25.554999…`; the float sum is
`35.554999…`, whose `toFixed(2)` is `"35.55"`, so the route stores
`flQ 3555 100` (displayed 35.55), which differs from the claimed
35.56. -/
theorem postOrders_rounding_counterexample :
    postOrders [⟨"a@b.com", some 10, none⟩] []
      ⟨"A@B.com", flQ 25555 1000, 1700000000000⟩ "o1" =
      .created ⟨"o1", "a@b.com", flQ 25555 1000, 1700000000000⟩
        [⟨"a@b.com", some (flQ 3555 100), some (some 1700000000000)⟩]
        [⟨"o1", "a@b.com", flQ 25555 1000, 1700000000000⟩] ∧
    specRound2 (10 + 25555 / 1000) = 3556 / 100 ∧
    flQ 3555 100 ≠ specRound2 (10 + 25555 / 1000) := by
  have h56 : specRound2 (10 + 25555 / 1000) = 3556 / 100 := by
    norm_num [specRound2]
  refine ⟨by decide, h56, ?_⟩
  rw [h56, show flQ 3555 100 = mkRat 2501608855515955 70368744177664 from by decide,
    Rat.mkRat_eq_divInt, Rat.divInt_eq_div]
  norm_num

end Crm
